import Mathlib

/-!
Verification of the proxysql_cfgcheck repository: a shallow embedding of
its tokenizer, recursive-descent parser, config accessors, integer
coercion, and the six built-in validation rules, together with theorems
settling the frozen claims about the natural-language specification.

Modelling conventions:
* Python runtime values appearing in a parsed configuration tree are the
  sum type `Value` below (str, int, float, bool, None, dict, list).  The
  source is dynamically typed; bareword identifiers are ordinary Python
  strings (`_parse_value` returns the `str` it read), so there is no
  separate Identifier variant at runtime.
* Python `int` is unbounded, modelled by `Int`; Python `float` only ever
  flows from a numeric literal into the tree and is never computed with,
  so it is modelled by the exact decimal value as a `Rat` (IEEE-754
  rounding of long literals is not modelled; no rule inspects floats).
* Python dicts are insertion-ordered association lists with unique keys;
  assignment replaces in place (`pyDictInsert`).
* Operations that can raise at runtime on a wrongly-typed value
  (attribute access `entry.get(...)` on a non-dict; hashing the
  duplicate-server composite key when its address component is an
  unhashable dict or list) are modelled in the `Except String` monad;
  the isinstance guards of the source appear as boolean tests before
  the attribute accesses, while the hashing error path is reachable.
* `char.isdigit()` / `isalpha()` / `isalnum()` are modelled by their
  ASCII meaning (`Char.isDigit` etc.); configuration text relevant to the
  claims is ASCII, and non-ASCII Unicode categories are not modelled.
-/

namespace ProxyCfg

/-- Python value tree produced by the configuration parser: str, int,
float, bool, None, dict (insertion-ordered, string keys), list. -/
inductive Value where
  | str (s : String)
  | int (n : Int)
  | float (q : Rat)
  | bool (b : Bool)
  | null
  | obj (entries : List (String × Value))
  | list (items : List Value)

mutual

/-- Structural equality of runtime values, Python `==` as used by set
membership on the duplicate-detection keys.  Python's cross-type
numeric equalities (`True == 1`, `1 == 1.0`) are not modelled: the
duplicate-detection theorems below only ever compare keys whose
corresponding components carry the same runtime type. -/
def Value.beq : Value → Value → Bool
  | .str a, .str b => a == b
  | .int a, .int b => a == b
  | .float a, .float b => a == b
  | .bool a, .bool b => a == b
  | .null, .null => true
  | .obj a, .obj b => beqEntries a b
  | .list a, .list b => beqItems a b
  | _, _ => false

/-- Pointwise equality of dict entry lists. -/
def beqEntries : List (String × Value) → List (String × Value) → Bool
  | [], [] => true
  | (k, v) :: rest, (k', v') :: rest' => k == k' && Value.beq v v' && beqEntries rest rest'
  | _, _ => false

/-- Pointwise equality of value lists. -/
def beqItems : List Value → List Value → Bool
  | [], [] => true
  | v :: rest, v' :: rest' => Value.beq v v' && beqItems rest rest'
  | _, _ => false

end

/-- Whitespace characters recognised by Python `str.strip()` and by
`int(str)` (ASCII subset). -/
def pySpace (c : Char) : Bool :=
  c = ' ' ∨ c = '\t' ∨ c = '\n' ∨ c = '\r' ∨ c = '\x0b' ∨ c = '\x0c'

/-- Python `str.strip()` on the character list: drop whitespace from both
ends. -/
def pyStripList (cs : List Char) : List Char :=
  ((cs.dropWhile pySpace).reverse.dropWhile pySpace).reverse

/-- Python `str.strip()`. -/
def pyStrip (s : String) : String :=
  String.mk (pyStripList s.data)

/-- Numeric value of a digit character. -/
def digitVal (c : Char) : Nat := c.toNat - 48

/-- Continuation state of CPython's base-10 digit scanner after the first
digit: digits, with a single underscore allowed between two digits. -/
def digitsUAux (acc : Nat) : List Char → Option Nat
  | [] => some acc
  | c :: cs =>
    if c.isDigit then digitsUAux (acc * 10 + digitVal c) cs
    else if c = '_' then
      match cs with
      | [] => none
      | d :: cs2 => if d.isDigit then digitsUAux (acc * 10 + digitVal d) cs2 else none
    else none

/-- CPython base-10 digit-run parser: one or more decimal digits,
optionally in groups separated by single underscores. -/
def digitsU : List Char → Option Nat
  | [] => none
  | c :: cs => if c.isDigit then digitsUAux (digitVal c) cs else none

/-- Python `int(s)` for a `str` argument, base 10: optional surrounding
whitespace, an optional `+` or `-` sign, then a digit run with optional
single underscores between digits; anything else raises `ValueError`,
modelled as `none`. -/
def pyIntOfString (s : String) : Option Int :=
  match pyStripList s.data with
  | [] => none
  | c :: cs =>
    if c = '+' then (digitsU cs).map Int.ofNat
    else if c = '-' then (digitsU cs).map (fun n => -(n : Int))
    else (digitsU (c :: cs)).map Int.ofNat

/-- Shared integer coercion `_coerce_int` (identical copies live in
config_model.py and rules/builtin.py): bool first (a Python bool is an
int, so the bool test must precede the int test), then int, then str via
`int(s)`; every other runtime type yields None. -/
def coerceInt : Value → Option Int
  | .bool b => some (if b then 1 else 0)
  | .int n => some n
  | .str s => pyIntOfString s
  | _ => none

/-- Python truthiness of a runtime value. -/
def pyTruthy : Value → Bool
  | .str s => s ≠ ""
  | .int n => n ≠ 0
  | .float q => q ≠ 0
  | .bool b => b
  | .null => false
  | .obj m => ¬m.isEmpty
  | .list l => ¬l.isEmpty

/-- Lookup in an insertion-ordered dict, Python `d.get(k)`: the value at
the key, or None when absent.  `none` is Python None, which is also the
result when the stored value is the None literal (`Value.null` and a
missing key are distinguished here so that key membership is expressible;
`pyIsNone` collapses them the way `is None` does). -/
def objGet : List (String × Value) → String → Option Value
  | [], _ => none
  | (k, v) :: rest, key => if k = key then some v else objGet rest key

/-- Python `x is None` applied to the result of a `.get` call: true when
the key was absent or its stored value was None. -/
def pyIsNone : Option Value → Bool
  | none => true
  | some .null => true
  | some _ => false

/-- Python dict assignment `d[k] = v`: replaces the value in place when
the key exists (keeping its position), else appends. -/
def pyDictInsert : List (String × Value) → String → Value → List (String × Value)
  | [], k, v => [(k, v)]
  | (k', v') :: rest, k, v =>
    if k' = k then (k, v) :: rest else (k', v') :: pyDictInsert rest k v

/-- Attribute access `value.get(key)` as performed by the rules on a list
entry: succeeds on a dict, raises `AttributeError` on anything else. -/
def Value.pyGet : Value → String → Except String (Option Value)
  | .obj m, key => .ok (objGet m key)
  | _, _ => .error "AttributeError: object has no attribute get"

/-- The `isinstance(x, dict)` test. -/
def Value.isObj : Value → Bool
  | .obj _ => true
  | _ => false

/-- The `isinstance(x, str)` test. -/
def Value.isStr : Value → Bool
  | .str _ => true
  | _ => false

/-- Python hashability of a runtime value: str, int, float, bool and
None hash; hashing a dict or a list raises TypeError. -/
def Value.pyHashable : Value → Bool
  | .obj _ => false
  | .list _ => false
  | _ => true

mutual

/-- Python `str(x)` of a runtime value (used by f-string interpolation in
finding messages).  For str it is the text itself; containers use their
repr.  String escaping inside repr is not modelled (no claim evaluates
it), and floats print as rationals rather than float repr. -/
def pyStr : Value → String
  | .str s => s
  | v => pyRepr v

/-- Python `repr(x)` approximation for message interpolation. -/
def pyRepr : Value → String
  | .str s => "'" ++ s ++ "'"
  | .int n => toString n
  | .float q => toString q
  | .bool b => if b then "True" else "False"
  | .null => "None"
  | .obj m => "\x7b" ++ pyReprEntries m ++ "\x7d"
  | .list l => "[" ++ pyReprItems l ++ "]"

/-- Comma-separated repr of dict entries. -/
def pyReprEntries : List (String × Value) → String
  | [] => ""
  | [(k, v)] => "'" ++ k ++ "': " ++ pyRepr v
  | (k, v) :: rest => "'" ++ k ++ "': " ++ pyRepr v ++ ", " ++ pyReprEntries rest

/-- Comma-separated repr of list items. -/
def pyReprItems : List Value → String
  | [] => ""
  | [v] => pyRepr v
  | v :: rest => pyRepr v ++ ", " ++ pyReprItems rest

end

/-- Source position, 1-based line and column, as tracked by the
tokenizer. -/
structure Pos where
  line : Nat
  col : Nat
  deriving DecidableEq

/-- Tokenizer `_advance`: consuming a character moves the column right by
one; with the `newline` flag (passed only by the top-level scanning loop
when it skips a bare `\n`) the line advances and the column resets. -/
def adv (p : Pos) (newline : Bool := false) : Pos :=
  if newline then ⟨p.line + 1, 1⟩ else ⟨p.line, p.col + 1⟩

/-- A token: kind (STRING, NUMBER, IDENT, or the symbol character
itself), literal text, and the position of its first character. -/
structure Token where
  kind : String
  value : String
  pos : Pos
  deriving DecidableEq

/-- A ConfigSyntaxError: message and optional position. -/
structure CfgError where
  message : String
  pos : Option Pos
  deriving DecidableEq

/-- Symbol characters that form one-character tokens. -/
def isSymbolChar (c : Char) : Bool :=
  c = '=' ∨ c = ',' ∨ c = '{' ∨ c = '}' ∨ c = '(' ∨ c = ')'

/-- Tokenizer `_translate_escape`: recognised escapes, any other
character after a backslash passes through unchanged. -/
def translateEscape (c : Char) : Char :=
  if c = 'n' then '\n'
  else if c = 't' then '\t'
  else if c = '"' then '"'
  else if c = '\\' then '\\'
  else c

/-- Tokenizer `_consume_comment`: consume characters up to, but not
including, the next newline or end of input.  Every consumed character
advances the position without the newline flag. -/
def consumeComment : List Char → Pos → List Char × Pos
  | [], p => ([], p)
  | c :: rest, p =>
    if c = '\n' then (c :: rest, p) else consumeComment rest (adv p)

/-- Tokenizer `_consume_string` after the opening quote has been
consumed: `start` is the position of the opening quote, `acc` the
characters read so far.  Every advance — including over a newline inside
the literal — uses the default (non-newline) `_advance`.  An unterminated
literal or an escape at end of input is a SyntaxError anchored at the
opening quote. -/
def consumeStringBody (start : Pos) (acc : List Char) :
    List Char → Pos → Except CfgError (Token × List Char × Pos)
  | [], _ => .error ⟨"Unterminated string literal", some start⟩
  | c :: rest, p =>
    if c = '"' then .ok (⟨"STRING", String.mk acc, start⟩, rest, adv p)
    else if c = '\\' then
      match rest with
      | [] => .error ⟨"Unterminated escape sequence", some start⟩
      | e :: rest2 => consumeStringBody start (acc ++ [translateEscape e]) rest2 (adv (adv p))
    else consumeStringBody start (acc ++ [c]) rest (adv p)

/-- A run of characters satisfying `f`, with the updated position: the
shape of the digit and identifier loops of the tokenizer. -/
def takeWhilePos (f : Char → Bool) : List Char → Pos → List Char × List Char × Pos
  | [], p => ([], [], p)
  | c :: rest, p =>
    if f c then
      let (run, left, p') := takeWhilePos f rest (adv p)
      (c :: run, left, p')
    else ([], c :: rest, p)

/-- Tokenizer `_consume_number` after the optional leading `-` has been
handled: a digit run, then optionally `.` followed by a mandatory digit
run; a dot with no following digit is a SyntaxError anchored at `start`,
the position of the start of the number. -/
def consumeNumberCore (neg : Bool) (start : Pos) (cs1 : List Char) (p1 : Pos) :
    Except CfgError (Token × List Char × Pos) :=
  let (ds, cs2, p2) := takeWhilePos Char.isDigit cs1 p1
  match cs2 with
  | '.' :: cs3 =>
    let p3 := adv p2
    match cs3 with
    | [] => .error ⟨"Invalid number literal", some start⟩
    | d :: _ =>
      if d.isDigit then
        let (fs, cs4, p4) := takeWhilePos Char.isDigit cs3 p3
        .ok (⟨"NUMBER", String.mk ((if neg then ['-'] else []) ++ ds ++ '.' :: fs), start⟩, cs4, p4)
      else .error ⟨"Invalid number literal", some start⟩
  | _ => .ok (⟨"NUMBER", String.mk ((if neg then ['-'] else []) ++ ds), start⟩, cs2, p2)

/-- Tokenizer `_consume_number`: consume the optional leading `-`, then
hand over to the digit runs. -/
def consumeNumber (cs : List Char) (p : Pos) :
    Except CfgError (Token × List Char × Pos) :=
  match cs with
  | c :: rest =>
    if c = '-' then consumeNumberCore true p rest (adv p)
    else consumeNumberCore false p (c :: rest) p
  | [] => consumeNumberCore false p cs p

/-- Tokenizer `_consume_identifier`: letters, digits and underscores. -/
def consumeIdent (cs : List Char) (p : Pos) : Token × List Char × Pos :=
  let (run, left, p') := takeWhilePos (fun c => c.isAlphanum ∨ c = '_') cs p
  (⟨"IDENT", String.mk run, p⟩, left, p')

/-- Python `self._peek_next().isdigit()`: the character after the current
one, with `'\x00'` (not a digit) at end of input. -/
def nextIsDigit : List Char → Bool
  | d :: _ => d.isDigit
  | [] => false

/-- The tokenizer main loop (`Tokenizer.tokens`), one fuel unit per
iteration.  Every iteration consumes at least one character, so fuel
equal to the input length plus one never runs out; exhaustion is an
unreachable defensive error. -/
def tokensAux : Nat → List Char → Pos → Except CfgError (List Token)
  | _, [], _ => .ok []
  | 0, _ :: _, _ => .error ⟨"fuel exhausted", none⟩
  | fuel + 1, c :: cs, p =>
    if c = ' ' ∨ c = '\t' ∨ c = '\r' then tokensAux fuel cs (adv p)
    else if c = '\n' then tokensAux fuel cs (adv p true)
    else if c = '#' then
      let (rest, p2) := consumeComment cs (adv p)
      tokensAux fuel rest p2
    else if c = '"' then do
      let (tok, rest, p2) ← consumeStringBody p [] cs (adv p)
      let toks ← tokensAux fuel rest p2
      .ok (tok :: toks)
    else if isSymbolChar c then do
      let toks ← tokensAux fuel cs (adv p)
      .ok (⟨String.singleton c, String.singleton c, p⟩ :: toks)
    else if c.isDigit ∨ (c = '-' ∧ nextIsDigit cs) then do
      let (tok, rest, p2) ← consumeNumber (c :: cs) p
      let toks ← tokensAux fuel rest p2
      .ok (tok :: toks)
    else if c.isAlpha ∨ c = '_' then
      let (tok, rest, p2) := consumeIdent (c :: cs) p
      do
        let toks ← tokensAux fuel rest p2
        .ok (tok :: toks)
    else .error ⟨"Unexpected character '" ++ String.singleton c ++ "'", some p⟩

/-- Full tokenization of an input text, starting at line 1, column 1. -/
def tokenize (s : String) : Except CfgError (List Token) :=
  tokensAux (s.data.length + 1) s.data ⟨1, 1⟩

/-- Integer of a NUMBER literal, Python `int(literal)`.  The tokenizer
only produces literals of the shape `-?[0-9]+` here, on which `int`
succeeds; the default covers calls outside that invariant (where Python
would raise ValueError, unreachable from `parse_config`). -/
def intOfNumberLiteral (lit : String) : Int :=
  (pyIntOfString lit).getD 0

/-- Value of a digit run. -/
def natOfDigits (ds : List Char) : Nat :=
  ds.foldl (fun acc c => acc * 10 + digitVal c) 0

/-- Float of a NUMBER literal containing a dot, Python `float(literal)`:
the exact decimal value `-?intpart.fracpart` as a rational (IEEE-754
rounding is not modelled; parsed floats are never computed with). -/
def floatOfNumberLiteral (lit : String) : Rat :=
  let (neg, cs) :=
    match lit.data with
    | c :: rest => if c = '-' then (true, rest) else (false, c :: rest)
    | [] => (false, [])
  let ip := cs.takeWhile Char.isDigit
  let rest := cs.dropWhile Char.isDigit
  let fp :=
    match rest with
    | '.' :: fs => fs.takeWhile Char.isDigit
    | _ => []
  let mag : Rat := mkRat (natOfDigits ip * 10 ^ fp.length + natOfDigits fp) (10 ^ fp.length)
  if neg then -mag else mag

/-- Parser treatment of a NUMBER token: `float(literal)` when the literal
contains a dot, else `int(literal)`. -/
def numberValue (lit : String) : Value :=
  if lit.data.contains '.' then .float (floatOfNumberLiteral lit) else .int (intOfNumberLiteral lit)

/-- Python `str.lower()` restricted to ASCII (IDENT tokens contain only
letters, digits and underscores). -/
def pyLower (s : String) : String :=
  String.mk (s.data.map Char.toLower)

/-- Parser treatment of a bare IDENT token in value position:
case-insensitive mapping of true/false/null; any other bareword is kept
verbatim (the source stores it as the plain Python string it read). -/
def identValue (s : String) : Value :=
  let lowered := pyLower s
  if lowered = "true" then .bool true
  else if lowered = "false" then .bool false
  else if lowered = "null" then .null
  else .str s

/-- Parser `_consume(kind)`: take the current token when its kind
matches, else a SyntaxError carrying the unexpected token's position, or
no position at end of input. -/
def consumeTok (kind : String) : List Token → Except CfgError (Token × List Token)
  | [] => .error ⟨"Expected token '" ++ kind ++ "'", none⟩
  | t :: rest =>
    if t.kind = kind then .ok (t, rest)
    else .error ⟨"Expected token '" ++ kind ++ "'", some t.pos⟩

/-- Parser `_consume_optional_separator`: if the next token is the stop
token, consume nothing; otherwise consume a single optional comma. -/
def consumeOptionalSeparator (toks : List Token) (stop : String) : List Token :=
  match toks with
  | [] => []
  | t :: rest =>
    if t.kind = stop then t :: rest
    else if t.kind = "," then rest
    else t :: rest

/-- The three mutually recursive parser procedures (`_parse_value`,
`_parse_object`'s member loop, `_parse_list`'s element loop), packaged
as one structural recursion over fuel: the triple holds, in order, the
value parser, the object-member loop and the list-element loop, each at
the given fuel level.  Every nested call moves down one fuel level, and
each level consumes at least one token, so fuel exceeding the token
count never runs out (exhaustion is an unreachable defensive error). -/
def parsePack : Nat →
    (List Token → Except CfgError (Value × List Token)) ×
    (List Token → List (String × Value) → Except CfgError (Value × List Token)) ×
    (List Token → List Value → Except CfgError (Value × List Token))
  | 0 =>
    (fun _ => .error ⟨"fuel exhausted", none⟩,
     fun _ _ => .error ⟨"fuel exhausted", none⟩,
     fun _ _ => .error ⟨"fuel exhausted", none⟩)
  | fuel + 1 =>
    (fun toks =>
      match toks with
      | ⟨"STRING", v, _⟩ :: rest => .ok (.str v, rest)
      | ⟨"NUMBER", lit, _⟩ :: rest => .ok (numberValue lit, rest)
      | ⟨"IDENT", s, _⟩ :: rest => .ok (identValue s, rest)
      | ⟨"\x7b", _, _⟩ :: rest => (parsePack fuel).2.1 rest []
      | ⟨"(", _, _⟩ :: rest => (parsePack fuel).2.2 rest []
      | t :: _ => .error ⟨"Unexpected token", some t.pos⟩
      | [] => .error ⟨"Unexpected token", none⟩,
     fun toks acc =>
      match toks with
      | ⟨"\x7d", _, _⟩ :: rest => .ok (.obj acc, rest)
      | _ => do
        let (key, r1) ← consumeTok "IDENT" toks
        let (_, r2) ← consumeTok "=" r1
        let (v, r3) ← (parsePack fuel).1 r2
        let r4 := consumeOptionalSeparator r3 "\x7d"
        (parsePack fuel).2.1 r4 (pyDictInsert acc key.value v),
     fun toks acc =>
      match toks with
      | ⟨")", _, _⟩ :: rest => .ok (.list acc, rest)
      | _ => do
        let (v, r1) ← (parsePack fuel).1 toks
        let r2 := consumeOptionalSeparator r1 ")"
        (parsePack fuel).2.2 r2 (acc ++ [v]))

/-- Parser `_parse_value` at a fuel level. -/
def parseValue (fuel : Nat) (toks : List Token) : Except CfgError (Value × List Token) :=
  (parsePack fuel).1 toks

/-- Parser `_parse_object` member loop at a fuel level, `acc` holding
the members read so far (dict assignment replaces duplicates in
place). -/
def parseObjectLoop (fuel : Nat) (toks : List Token) (acc : List (String × Value)) :
    Except CfgError (Value × List Token) :=
  (parsePack fuel).2.1 toks acc

/-- Parser `_parse_list` element loop at a fuel level. -/
def parseListLoop (fuel : Nat) (toks : List Token) (acc : List Value) :
    Except CfgError (Value × List Token) :=
  (parsePack fuel).2.2 toks acc

/-- Parser top-level loop (`_Parser.parse`): a flat sequence of
`IDENT = value` assignments until the token stream is exhausted. -/
def parseTop : Nat → List Token → List (String × Value) →
    Except CfgError (List (String × Value))
  | 0, _, _ => .error ⟨"fuel exhausted", none⟩
  | _ + 1, [], acc => .ok acc
  | fuel + 1, toks, acc => do
    let (key, r1) ← consumeTok "IDENT" toks
    let (_, r2) ← consumeTok "=" r1
    let (v, r3) ← parseValue fuel r2
    parseTop fuel r3 (pyDictInsert acc key.value v)

/-- The `parse_config` entry point: tokenize, then parse the token
sequence into the root dict. -/
def parseConfig (s : String) : Except CfgError (List (String × Value)) := do
  let toks ← tokenize s
  parseTop (toks.length + 1) toks []

/-- A Config wraps the parsed root dict (`config_model.Config.raw`). -/
def Config := List (String × Value)

/-- Config.get_block: the dict stored at `name`, or an empty dict when
the key is absent or holds a non-dict value. -/
def getBlock (raw : Config) (name : String) : List (String × Value) :=
  match objGet raw name with
  | some (.obj m) => m
  | _ => []

/-- Config.get_list: the list stored at `name`, or an empty list when
the key is absent or holds a non-list value. -/
def getList (raw : Config) (name : String) : List Value :=
  match objGet raw name with
  | some (.list l) => l
  | _ => []

/-- Config.missing_blocks: the requested names absent from the root, in
request order (key membership: a key stored with a None value is
present). -/
def missingBlocks (raw : Config) (names : List String) : List String :=
  names.filter (fun n => (objGet raw n).isNone)

/-- Insert into a Python set of ints (membership only; a set has no
duplicates). -/
def setInsertInt (s : List Int) (n : Int) : List Int :=
  if s.contains n then s else s ++ [n]

/-- Config.hostgroups loop: collect the coerced `hostgroup` of every dict
entry of `mysql_servers` into a set. -/
def hostgroupsAux : List Value → List Int → List Int
  | [], acc => acc
  | e :: rest, acc =>
    match e with
    | .obj m =>
      match (objGet m "hostgroup").bind coerceInt with
      | some hg => hostgroupsAux rest (setInsertInt acc hg)
      | none => hostgroupsAux rest acc
    | _ => hostgroupsAux rest acc

/-- Config.hostgroups: the set of integer hostgroup ids declared across
the well-formed `mysql_servers` entries. -/
def hostgroups (raw : Config) : List Int :=
  hostgroupsAux (getList raw "mysql_servers") []

/-- Severity enum. -/
inductive Severity where
  | error
  | warning
  | info
  deriving DecidableEq

/-- A Finding: rule slug, message, severity, optional location (always
absent for the built-in rules). -/
structure Finding where
  rule : String
  message : String
  severity : Severity
  location : Option String
  deriving DecidableEq

/-- An error finding with no location. -/
def errF (slug msg : String) : Finding := ⟨slug, msg, .error, none⟩

/-- A warning finding with no location. -/
def warnF (slug msg : String) : Finding := ⟨slug, msg, .warning, none⟩

/-- A Rule: slug, description, default severity and its check, which may
in principle fail (`Except`) when it dereferences a wrongly-typed value;
the built-in rules guard every such access. -/
structure Rule where
  slug : String
  description : String
  severity : Severity
  check : Config → Except String (List Finding)

/-- RuleEngine.run: invoke each rule's check in registration order and
concatenate the findings (a raising rule would abort the run). -/
def engineRun (rules : List Rule) (raw : Config) : Except String (List Finding) :=
  match rules with
  | [] => .ok []
  | r :: rest => do
    let fs ← r.check raw
    let more ← engineRun rest raw
    .ok (fs ++ more)

/-- RequiredBlocksRule.check body. -/
def requiredBlocksCheck (required : List String) (raw : Config) :
    Except String (List Finding) :=
  .ok ((missingBlocks raw required).map
    (fun n => errF "required_blocks" ("Missing required block '" ++ n ++ "'")))

/-- RequiredBlocksRule with its default required blocks. -/
def RequiredBlocksRule : Rule :=
  ⟨"required_blocks", "Ensure essential ProxySQL blocks are present", .error,
    requiredBlocksCheck ["admin_variables", "mysql_variables", "mysql_servers"]⟩

/-- AdminCredentialsRule.check body: credentials must be a string
containing a colon; independently, mysql_ifaces must be a string that is
non-blank after stripping, else a warning. -/
def adminCredentialsCheck (raw : Config) : Except String (List Finding) :=
  let adminBlock := getBlock raw "admin_variables"
  let credFindings :=
    match objGet adminBlock "admin_credentials" with
    | some (.str s) =>
      if s.data.contains ':' then []
      else [errF "admin_credentials" "admin_variables.admin_credentials must be set as 'user:password'"]
    | _ => [errF "admin_credentials" "admin_variables.admin_credentials must be set as 'user:password'"]
  let ifacesFindings :=
    match objGet adminBlock "mysql_ifaces" with
    | some (.str s) =>
      if pyStrip s ≠ "" then []
      else [warnF "admin_credentials" "admin_variables.mysql_ifaces should define at least one listener"]
    | _ => [warnF "admin_credentials" "admin_variables.mysql_ifaces should define at least one listener"]
  .ok (credFindings ++ ifacesFindings)

/-- AdminCredentialsRule. -/
def AdminCredentialsRule : Rule :=
  ⟨"admin_credentials", "Validate admin credentials and listener configuration", .error,
    adminCredentialsCheck⟩

/-- Composite duplicate-detection key of a mysql_servers entry:
`(addr or "", port or -1, hostgroup or -1)` — each component replaced by
its sentinel when the present value is falsy (Python `or`). -/
def serverKey (addr : Option Value) (port hostgroup : Option Int) : Value × Int × Int :=
  (match addr with
   | some v => if pyTruthy v then v else .str ""
   | none => .str "",
   match port with
   | some n => if n ≠ 0 then n else -1
   | none => -1,
   match hostgroup with
   | some n => if n ≠ 0 then n else -1
   | none => -1)

/-- Python `==` on the composite server keys. -/
def keyBeq (a b : Value × Int × Int) : Bool :=
  Value.beq a.1 b.1 && a.2.1 == b.2.1 && a.2.2 == b.2.2

/-- Membership in the set of seen server keys. -/
def keyMem (seen : List (Value × Int × Int)) (k : Value × Int × Int) : Bool :=
  seen.any (fun k' => keyBeq k' k)

/-- Insert into the set of seen server keys. -/
def keyInsert (seen : List (Value × Int × Int)) (k : Value × Int × Int) :
    List (Value × Int × Int) :=
  if keyMem seen k then seen else seen ++ [k]

/-- MysqlServersRule.check per-entry loop.  `idx` is the running index,
`seen` the set of composite keys of entries with all three of address,
port and hostgroup non-None.  Membership test and insertion into the
set (`key in seen`, `seen.add(key)`) hash the composite key first: when
the address component of the key is a (truthy, hence kept) dict or
list, the key is unhashable and Python raises TypeError, modelled by
the `.error` branch; the findings already yielded for the entry before
the raising line are not retained by this model, which aborts the
check with the error. -/
def serversLoop (idx : Nat) (seen : List (Value × Int × Int)) :
    List Value → Except String (List Finding)
  | [] => .ok []
  | entry :: rest =>
    let prefixStr := "mysql_servers[" ++ toString idx ++ "]"
    if entry.isObj then do
      let addr ← entry.pyGet "address"
      let portRaw ← entry.pyGet "port"
      let hgRaw ← entry.pyGet "hostgroup"
      let port := portRaw.bind coerceInt
      let hostgroup := hgRaw.bind coerceInt
      let addrFindings :=
        match addr with
        | some (.str s) =>
          if s ≠ "" then []
          else [errF "mysql_servers" (prefixStr ++ ".address must be a non-empty string")]
        | _ => [errF "mysql_servers" (prefixStr ++ ".address must be a non-empty string")]
      let portFindings :=
        match port with
        | some n =>
          if 0 < n ∧ n < 65536 then []
          else [errF "mysql_servers" (prefixStr ++ ".port must be a valid TCP port")]
        | none => [errF "mysql_servers" (prefixStr ++ ".port must be a valid TCP port")]
      let hgFindings :=
        match hostgroup with
        | some n =>
          if n < 0 then [errF "mysql_servers" (prefixStr ++ ".hostgroup must be a non-negative integer")]
          else []
        | none => [errF "mysql_servers" (prefixStr ++ ".hostgroup must be a non-negative integer")]
      let maxConn ← entry.pyGet "max_connections"
      let maxConnFindings :=
        if pyIsNone maxConn then
          [warnF "mysql_servers" (prefixStr ++ ".max_connections is recommended")]
        else []
      let key := serverKey addr port hostgroup
      let allPresent := ¬pyIsNone addr ∧ port.isSome ∧ hostgroup.isSome
      let (dupFindings, seen2) ←
        if allPresent then
          if key.1.pyHashable then
            .ok
              (if keyMem seen key then
                [errF "mysql_servers"
                  ("Duplicate mysql_server entry for " ++ pyStr ((addr.getD .null)) ++ ":" ++
                    toString (port.getD 0) ++ " in hostgroup " ++ toString (hostgroup.getD 0))]
               else [],
               keyInsert seen key)
          else .error "TypeError: unhashable type"
        else .ok ([], seen)
      let tail ← serversLoop (idx + 1) seen2 rest
      .ok (addrFindings ++ portFindings ++ hgFindings ++ maxConnFindings ++ dupFindings ++ tail)
    else do
      let tail ← serversLoop (idx + 1) seen rest
      .ok (errF "mysql_servers" (prefixStr ++ " must be an object") :: tail)

/-- MysqlServersRule.check body: error when the list is empty, else the
per-entry loop. -/
def mysqlServersCheck (raw : Config) : Except String (List Finding) :=
  let servers := getList raw "mysql_servers"
  if servers.isEmpty then
    .ok [errF "mysql_servers" "mysql_servers must define at least one hostgroup"]
  else serversLoop 0 [] servers

/-- MysqlServersRule. -/
def MysqlServersRule : Rule :=
  ⟨"mysql_servers", "Check backend server definitions", .error, mysqlServersCheck⟩

/-- MysqlUsersRule.check per-entry loop. -/
def usersLoop (hgs : List Int) (idx : Nat) : List Value → Except String (List Finding)
  | [] => .ok []
  | entry :: rest =>
    let prefixStr := "mysql_users[" ++ toString idx ++ "]"
    if entry.isObj then do
      let username ← entry.pyGet "username"
      let password ← entry.pyGet "password"
      let dfltRaw ← entry.pyGet "default_hostgroup"
      let dfltHg := dfltRaw.bind coerceInt
      let userFindings :=
        match username with
        | some (.str s) => if s ≠ "" then [] else [errF "mysql_users" (prefixStr ++ ".username must be set")]
        | _ => [errF "mysql_users" (prefixStr ++ ".username must be set")]
      let passFindings :=
        match password with
        | some (.str s) => if s ≠ "" then [] else [errF "mysql_users" (prefixStr ++ ".password must be set")]
        | _ => [errF "mysql_users" (prefixStr ++ ".password must be set")]
      let hgFindings :=
        match dfltHg with
        | none => [errF "mysql_users" (prefixStr ++ ".default_hostgroup must be an integer")]
        | some n =>
          if ¬hgs.isEmpty ∧ ¬hgs.contains n then
            [errF "mysql_users" (prefixStr ++ " references missing hostgroup " ++ toString n)]
          else []
      let tail ← usersLoop hgs (idx + 1) rest
      .ok (userFindings ++ passFindings ++ hgFindings ++ tail)
    else do
      let tail ← usersLoop hgs (idx + 1) rest
      .ok (errF "mysql_users" (prefixStr ++ " must be an object") :: tail)

/-- MysqlUsersRule.check body. -/
def mysqlUsersCheck (raw : Config) : Except String (List Finding) :=
  usersLoop (hostgroups raw) 0 (getList raw "mysql_users")

/-- MysqlUsersRule. -/
def MysqlUsersRule : Rule :=
  ⟨"mysql_users", "Validate user definitions", .error, mysqlUsersCheck⟩

/-- MysqlQueryRulesRule.check rule_id handling: error when the id does
not coerce, duplicate error when it was already registered, nothing on a
first occurrence. -/
def qrIdFindings (prefixStr : String) (seenIds : List Int) (ruleId : Option Int) :
    List Finding :=
  match ruleId with
  | none => [errF "mysql_query_rules" (prefixStr ++ ".rule_id must be an integer")]
  | some n =>
    if seenIds.contains n then
      [errF "mysql_query_rules" ("Duplicate rule_id " ++ toString n ++ " in mysql_query_rules")]
    else []

/-- MysqlQueryRulesRule.check rule_id registration: a first occurrence
registers the id, anything else leaves the set unchanged. -/
def qrSeenAfter (seenIds : List Int) (ruleId : Option Int) : List Int :=
  match ruleId with
  | none => seenIds
  | some n => if seenIds.contains n then seenIds else setInsertInt seenIds n

/-- MysqlQueryRulesRule.check destination_hostgroup handling. -/
def qrDestFindings (hgs : List Int) (prefixStr : String) (dest : Option Int) :
    List Finding :=
  match dest with
  | some n =>
    if ¬hgs.isEmpty ∧ ¬hgs.contains n then
      [errF "mysql_query_rules" (prefixStr ++ " references missing hostgroup " ++ toString n)]
    else []
  | none => []

/-- MysqlQueryRulesRule.check match_pattern handling: warning when falsy
or absent. -/
def qrMpFindings (prefixStr : String) (mp : Option Value) : List Finding :=
  match mp with
  | some v =>
    if pyTruthy v then []
    else [warnF "mysql_query_rules" (prefixStr ++ ".match_pattern should be defined")]
  | none => [warnF "mysql_query_rules" (prefixStr ++ ".match_pattern should be defined")]

/-- MysqlQueryRulesRule.check per-entry loop.  `seenIds` is the set of
integer rule ids registered by earlier entries. -/
def queryRulesLoop (hgs : List Int) (idx : Nat) (seenIds : List Int) :
    List Value → Except String (List Finding)
  | [] => .ok []
  | entry :: rest =>
    let prefixStr := "mysql_query_rules[" ++ toString idx ++ "]"
    if entry.isObj then do
      let ridRaw ← entry.pyGet "rule_id"
      let ruleId := ridRaw.bind coerceInt
      let idFindings := qrIdFindings prefixStr seenIds ruleId
      let seen2 := qrSeenAfter seenIds ruleId
      let destRaw ← entry.pyGet "destination_hostgroup"
      let dest := destRaw.bind coerceInt
      let destFindings := qrDestFindings hgs prefixStr dest
      let mp ← entry.pyGet "match_pattern"
      let mpFindings := qrMpFindings prefixStr mp
      let tail ← queryRulesLoop hgs (idx + 1) seen2 rest
      .ok (idFindings ++ destFindings ++ mpFindings ++ tail)
    else do
      let tail ← queryRulesLoop hgs (idx + 1) seenIds rest
      .ok (errF "mysql_query_rules" (prefixStr ++ " must be an object") :: tail)

/-- MysqlQueryRulesRule.check body. -/
def mysqlQueryRulesCheck (raw : Config) : Except String (List Finding) :=
  queryRulesLoop (hostgroups raw) 0 [] (getList raw "mysql_query_rules")

/-- MysqlQueryRulesRule. -/
def MysqlQueryRulesRule : Rule :=
  ⟨"mysql_query_rules", "Validate routing/query rules consistency", .error,
    mysqlQueryRulesCheck⟩

/-- PurePosixPath(s).is_absolute(): a POSIX path is absolute exactly when
it starts with a slash. -/
def posixIsAbsolute (s : String) : Bool :=
  match s.data with
  | c :: _ => c = '/'
  | [] => false

/-- DatadirRule.check body: warning when datadir is not a non-blank
string; warning when it is one but not an absolute path. -/
def datadirCheck (raw : Config) : Except String (List Finding) :=
  match objGet raw "datadir" with
  | some (.str s) =>
    if pyStrip s = "" then
      .ok [warnF "datadir" "datadir should be set to a writable path"]
    else if ¬posixIsAbsolute s then
      .ok [warnF "datadir" "datadir should be an absolute path"]
    else .ok []
  | _ => .ok [warnF "datadir" "datadir should be set to a writable path"]

/-- DatadirRule (default severity warning). -/
def DatadirRule : Rule :=
  ⟨"datadir", "Validate datadir definition", .warning, datadirCheck⟩

/-- The builtin_rules registration list, in order. -/
def builtinRules : List Rule :=
  [RequiredBlocksRule, AdminCredentialsRule, MysqlServersRule,
   MysqlUsersRule, MysqlQueryRulesRule, DatadirRule]

/-!
Specification-side definitions.  The definitions above are translated
from the source; the ones below restate grammars and counts in the
spec's words, for comparison with the translated code.
-/

/-- Fully numeric string in the spec's sense: an optional leading `-`
followed by one or more decimal digits, nothing else. -/
def isSpecNumeric (s : String) : Bool :=
  match s.data with
  | '-' :: cs => ¬cs.isEmpty && cs.all Char.isDigit
  | cs => ¬cs.isEmpty && cs.all Char.isDigit

/-- No two consecutive underscores anywhere in the list. -/
def noDoubleUnderscore : List Char → Bool
  | c :: d :: rest => ¬(c = '_' ∧ d = '_') && noDoubleUnderscore (d :: rest)
  | _ => true

/-- The last character, if any, is not an underscore. -/
def lastNotUnderscore : List Char → Bool
  | [] => true
  | [c] => ¬(c = '_')
  | _ :: rest => lastNotUnderscore rest

/-- Continuation of a grouped digit run after its first digit: every
character a digit or an underscore, no two adjacent underscores, not
ending in an underscore. -/
def tailGrouped (cs : List Char) : Bool :=
  cs.all (fun c => c.isDigit || c = '_') && noDoubleUnderscore cs && lastNotUnderscore cs

/-- Digit run in the amended sense: nonempty, every character a digit or
an underscore, starting and ending with a digit, with no two adjacent
underscores — decimal digit groups separated by single underscores. -/
def specGroupedDigits (cs : List Char) : Bool :=
  ¬cs.isEmpty && cs.all (fun c => c.isDigit || c = '_') &&
    (match cs with
     | c :: _ => c.isDigit
     | [] => false) &&
    lastNotUnderscore cs && noDoubleUnderscore cs

/-- Integer coercion of a string in the amended claim's words: strip
surrounding whitespace, accept one optional `+` or `-` sign, then a
grouped digit run; the value is the signed base-10 reading of the digits
with the underscores dropped. -/
def specIntAmended (s : String) : Option Int :=
  match pyStripList s.data with
  | [] => none
  | c :: cs =>
    let (sign, ds) : Int × List Char :=
      if c = '+' then (1, cs)
      else if c = '-' then (-1, cs)
      else (1, c :: cs)
    if specGroupedDigits ds then some (sign * (natOfDigits (ds.filter Char.isDigit) : Int))
    else none

/-- Number of elements preceded (anywhere earlier, `earlier` listing the
elements before the start of the list) by an equal element. -/
def dupCountFrom (earlier : List Int) : List Int → Nat
  | [] => 0
  | x :: xs => (if earlier.contains x then 1 else 0) + dupCountFrom (earlier ++ [x]) xs

/-- The coerced rule ids of the dict entries of a query-rules list, in
order. -/
def qrIds (entries : List Value) : List Int :=
  entries.filterMap (fun e =>
    match e with
    | .obj m => (objGet m "rule_id").bind coerceInt
    | _ => none)

/-- Prefix test on strings, character by character. -/
def beginsWith (pre s : String) : Bool :=
  pre.data.isPrefixOf s.data

/-- Entry predicate of the C6 hypothesis: a dict entry whose rule_id
coerces to an integer (non-dict entries are unconstrained). -/
def qrEntryCoercible : Value → Bool
  | .obj m => ((objGet m "rule_id").bind coerceInt).isSome
  | _ => true

/-- Recogniser for the duplicate-rule-id error message. -/
def isDupRuleIdFinding (f : Finding) : Bool :=
  beginsWith "Duplicate rule_id" f.message

/-- Recogniser for the duplicate-server error message. -/
def isDupServerFinding (f : Finding) : Bool :=
  beginsWith "Duplicate mysql_server" f.message

/-- A string of the lexical shape of an IDENT token: a letter or
underscore followed by letters, digits and underscores. -/
def isIdentShaped (s : String) : Bool :=
  match s.data with
  | [] => false
  | c :: cs => (c.isAlpha ∨ c = '_') && cs.all (fun d => d.isAlphanum ∨ d = '_')

/-- Text of the minimal valid fixture of the spec's §8. -/
def fixtureText : String :=
  "datadir = \"/var/lib/proxysql\"\n" ++
  "admin_variables = \x7b admin_credentials = \"admin:admin\", mysql_ifaces = \"0.0.0.0:6032\" \x7d\n" ++
  "mysql_variables = \x7b \x7d\n" ++
  "mysql_servers = ( \x7b address = \"127.0.0.1\", port = 3306, hostgroup = 0, max_connections = 100 \x7d )\n"

/-- The minimal valid fixture's root dict, with the mysql_ifaces text and
the max_connections value as parameters. -/
def fixtureRaw (ifaces : String) (maxConn : Value) : Config :=
  [("datadir", .str "/var/lib/proxysql"),
   ("admin_variables", .obj [("admin_credentials", .str "admin:admin"),
                             ("mysql_ifaces", .str ifaces)]),
   ("mysql_variables", .obj []),
   ("mysql_servers", .list [.obj [("address", .str "127.0.0.1"), ("port", .int 3306),
                                  ("hostgroup", .int 0), ("max_connections", maxConn)]])]

/-- Two query-rule entries sharing rule_id 1. -/
def qrPairRaw : Config :=
  [("mysql_query_rules", Value.list [Value.obj [("rule_id", Value.int 1)],
                                     Value.obj [("rule_id", Value.int 1)]])]

/-- Two server entries with the same address and port, the first with
hostgroup 0 and the second with hostgroup -1. -/
def svPairRaw (a : String) (p : Int) : Config :=
  [("mysql_servers", Value.list
    [Value.obj [("address", Value.str a), ("port", Value.int p),
                ("hostgroup", Value.int 0), ("max_connections", Value.int 1)],
     Value.obj [("address", Value.str a), ("port", Value.int p),
                ("hostgroup", Value.int (-1)), ("max_connections", Value.int 1)]])]

/-- Config text whose single server entry has a non-empty dict address
with port and hostgroup present: the composite duplicate-detection key
is then unhashable. -/
def svCrashText : String :=
  "mysql_servers = ( \x7b address = \x7b x = 1 \x7d, port = 3306, hostgroup = 0 \x7d )"

/-- The parsed root of `svCrashText`. -/
def svCrashRaw : Config :=
  [("mysql_servers", Value.list
    [Value.obj [("address", Value.obj [("x", Value.int 1)]),
                ("port", Value.int 3306), ("hostgroup", Value.int 0)]])]

/-- A NUMBER token with a dummy position (the parser reads positions only
for error reporting). -/
def numTok (lit : String) : Token := ⟨"NUMBER", lit, ⟨1, 1⟩⟩

/-- A comma token with a dummy position. -/
def commaTok : Token := ⟨",", ",", ⟨1, 1⟩⟩

/-- A closing-parenthesis token with a dummy position. -/
def closeParenTok : Token := ⟨")", ")", ⟨1, 1⟩⟩

/-- List-element tokens with a comma after every element. -/
def numToksSep (lits : List String) : List Token :=
  lits.flatMap (fun l => [numTok l, commaTok])

/-- List-element tokens with no separators at all. -/
def numToksNoSep (lits : List String) : List Token :=
  lits.map numTok

/-!
Theorems.  Helper lemmas come first, then one theorem per claim (with a
counterexample theorem where the claim fails on the code, and a witness
theorem where a claim theorem carries hypotheses).
-/

theorem dropWhile_eq_self_of_all {p : Char → Bool} {l : List Char}
    (h : ∀ x ∈ l, p x = false) : l.dropWhile p = l := by
  cases l with
  | nil => rfl
  | cons a t => exact List.dropWhile_cons_of_neg (by simp [h a (by simp)])

theorem pyStripList_eq_self {l : List Char} (h : ∀ x ∈ l, pySpace x = false) :
    pyStripList l = l := by
  unfold pyStripList
  rw [dropWhile_eq_self_of_all h,
    dropWhile_eq_self_of_all (fun x hx => h x (List.mem_reverse.mp hx)),
    List.reverse_reverse]

theorem identStart_facts {c : Char} (h : c.isAlpha = true ∨ c = '_') :
    pySpace c = false ∧ ¬(c = '+') ∧ ¬(c = '-') ∧ c.isDigit = false := by
  rcases h with h | rfl
  · have hrange : (65 ≤ c.val ∧ c.val ≤ 90) ∨ (97 ≤ c.val ∧ c.val ≤ 122) := by
      simp [Char.isAlpha, Char.isUpper, Char.isLower] at h
      rcases h with h | h
      · exact Or.inl ⟨h.1, h.2⟩
      · exact Or.inr ⟨h.1, h.2⟩
    refine ⟨?_, ?_, ?_, ?_⟩
    · by_contra hs
      simp only [Bool.not_eq_false, pySpace, decide_eq_true_eq] at hs
      rcases hs with rfl | rfl | rfl | rfl | rfl | rfl <;>
        rcases hrange with ⟨h1, h2⟩ | ⟨h1, h2⟩ <;> revert h1 h2 <;> decide
    · rintro rfl
      rcases hrange with ⟨h1, _⟩ | ⟨h1, _⟩ <;> revert h1 <;> decide
    · rintro rfl
      rcases hrange with ⟨h1, _⟩ | ⟨h1, _⟩ <;> revert h1 <;> decide
    · by_contra hd
      simp [Char.isDigit] at hd
      rcases hrange with ⟨h1, _⟩ | ⟨h1, _⟩
      · exact absurd (UInt32.le_trans h1 hd.2) (by decide)
      · exact absurd (UInt32.le_trans h1 hd.2) (by decide)
  · exact ⟨by decide, by decide, by decide, by decide⟩

theorem identBody_not_space {d : Char} (h : d.isAlphanum = true ∨ d = '_') :
    pySpace d = false := by
  by_contra hs
  simp only [Bool.not_eq_false, pySpace, decide_eq_true_eq] at hs
  rcases hs with rfl | rfl | rfl | rfl | rfl | rfl <;> revert h <;> decide

/-- Claim C7: the shared integer coercion function is total (in this
embedding, a function on all of `Value`) and maps each variant as the
spec states: Bool (tested before Int, as it must be since Python bools
are ints) to 0/1, Int to itself, Float, None, dict and list to no value,
and any Identifier — a bareword, stored by the parser as a plain string
of identifier shape — to no value. -/
theorem claim7_coercion_total :
    coerceInt (.bool true) = some 1 ∧
    coerceInt (.bool false) = some 0 ∧
    (∀ n : Int, coerceInt (.int n) = some n) ∧
    (∀ q : Rat, coerceInt (.float q) = none) ∧
    coerceInt .null = none ∧
    (∀ m, coerceInt (.obj m) = none) ∧
    (∀ l, coerceInt (.list l) = none) ∧
    (∀ s : String, isIdentShaped s = true → coerceInt (.str s) = none) := by
  refine ⟨rfl, rfl, fun n => rfl, fun q => rfl, rfl, fun m => rfl, fun l => rfl, ?_⟩
  intro s h
  unfold isIdentShaped at h
  split at h
  · exact absurd h (by simp)
  · rename_i c cs heq
    simp only [Bool.and_eq_true, decide_eq_true_eq, List.all_eq_true] at h
    obtain ⟨h1, h2⟩ := h
    obtain ⟨hsp, hplus, hminus, hdig⟩ := identStart_facts h1
    have hall : ∀ x ∈ s.data, pySpace x = false := by
      rw [heq]
      intro x hx
      rcases List.mem_cons.mp hx with rfl | hx
      · exact hsp
      · exact identBody_not_space (by simpa using h2 x hx)
    show pyIntOfString s = none
    unfold pyIntOfString
    rw [pyStripList_eq_self hall, heq]
    simp only [if_neg hplus, if_neg hminus]
    have hdu : digitsU (c :: cs) = none := by simp [digitsU, hdig]
    rw [hdu]
    rfl

/-- Witness for C7: the coercion evaluated on concrete identifier-shaped
input. -/
theorem claim7_coercion_total_witness :
    isIdentShaped "read_only" = true ∧ coerceInt (.str "read_only") = none :=
  ⟨by decide, claim7_coercion_total.2.2.2.2.2.2.2 "read_only" (by decide)⟩

theorem digitsUAux_step_digit {d : Char} (hd : d.isDigit = true) (acc : Nat) (cs : List Char) :
    digitsUAux acc (d :: cs) = digitsUAux (acc * 10 + digitVal d) cs := by
  conv_lhs => unfold digitsUAux
  rw [if_pos hd]

theorem digitsUAux_step_underscore {d : Char} (hd : d.isDigit = true) (acc : Nat) (cs : List Char) :
    digitsUAux acc ('_' :: d :: cs) = digitsUAux (acc * 10 + digitVal d) cs := by
  conv_lhs => unfold digitsUAux
  rw [if_neg (by decide), if_pos rfl]
  simp [hd]

theorem digitsUAux_step_bad {d : Char} (hd : d.isDigit = false) (hne : d ≠ '_') (acc : Nat) (cs : List Char) :
    digitsUAux acc (d :: cs) = none := by
  unfold digitsUAux
  rw [if_neg (by simp [hd]), if_neg hne]

theorem tailGrouped_cons_digit {c : Char} (hc : c.isDigit = true) (cs : List Char) :
    tailGrouped (c :: cs) = tailGrouped cs := by
  have hne : c ≠ '_' := by rintro rfl; exact absurd hc (by decide)
  rw [Bool.eq_iff_iff]
  cases cs with
  | nil =>
    simp [tailGrouped, noDoubleUnderscore, lastNotUnderscore, hc, hne]
  | cons d rest =>
    simp only [tailGrouped, List.all_cons, noDoubleUnderscore, lastNotUnderscore,
      Bool.and_eq_true, decide_eq_true_eq]
    simp [hc, hne]

theorem tailGrouped_underscore {d : Char} (hd : d.isDigit = true) (cs : List Char) :
    tailGrouped ('_' :: d :: cs) = tailGrouped (d :: cs) := by
  have hne : d ≠ '_' := by rintro rfl; exact absurd hd (by decide)
  rw [Bool.eq_iff_iff]
  simp only [tailGrouped, List.all_cons, noDoubleUnderscore, lastNotUnderscore,
    Bool.and_eq_true, decide_eq_true_eq]
  simp [hne]

theorem digitsUAux_eq (acc : Nat) (cs : List Char) :
    digitsUAux acc cs =
      if tailGrouped cs then
        some ((cs.filter Char.isDigit).foldl (fun a c => a * 10 + digitVal c) acc)
      else none := by
  induction acc, cs using digitsUAux.induct with
  | case1 acc =>
    simp [show digitsUAux acc [] = some acc from rfl, tailGrouped, noDoubleUnderscore,
      lastNotUnderscore]
  | case2 acc d cs2 hd ih =>
    rw [digitsUAux_step_digit hd, ih, tailGrouped_cons_digit hd,
      List.filter_cons_of_pos hd, List.foldl_cons]
  | case3 acc h =>
    simp [show digitsUAux acc ['_'] = none from rfl,
      show tailGrouped ['_'] = false from by decide]
  | case4 acc d cs2 hd hu ih =>
    rw [digitsUAux_step_underscore hd, ih, tailGrouped_underscore hd,
      tailGrouped_cons_digit hd]
    have hf : ('_' :: d :: cs2).filter Char.isDigit = d :: cs2.filter Char.isDigit := by
      rw [List.filter_cons_of_neg (by decide), List.filter_cons_of_pos hd]
    rw [hf, List.foldl_cons]
  | case5 acc d cs2 hd hu =>
    have hdf : d.isDigit = false := by simpa using hd
    by_cases hdu : d = '_'
    · subst hdu
      rw [show digitsUAux acc ('_' :: '_' :: cs2) = none from by
        conv_lhs => unfold digitsUAux
        simp]
      rw [show tailGrouped ('_' :: '_' :: cs2) = false from by
        simp [tailGrouped, noDoubleUnderscore]]
      rfl
    · rw [show digitsUAux acc ('_' :: d :: cs2) = none from by
        conv_lhs => unfold digitsUAux
        simp [hdf, hdu]]
      rw [show tailGrouped ('_' :: d :: cs2) = false from by
        simp [tailGrouped, hdf, hdu]]
      rfl
  | case6 acc d cs2 hd hne =>
    have hdf : d.isDigit = false := by simpa using hd
    rw [digitsUAux_step_bad hdf hne]
    rw [show tailGrouped (d :: cs2) = false from by simp [tailGrouped, hdf, hne]]
    rfl

theorem digitsU_eq (cs : List Char) :
    digitsU cs =
      if specGroupedDigits cs then some (natOfDigits (cs.filter Char.isDigit)) else none := by
  cases cs with
  | nil => simp [digitsU, specGroupedDigits]
  | cons c rest =>
    by_cases hc : c.isDigit = true
    · have hg : specGroupedDigits (c :: rest) = tailGrouped rest := by
        rw [← tailGrouped_cons_digit hc rest, Bool.eq_iff_iff]
        simp only [specGroupedDigits, tailGrouped, List.all_cons, List.isEmpty_cons,
          Bool.and_eq_true, decide_eq_true_eq]
        simp [hc]
        tauto
      rw [show digitsU (c :: rest) = digitsUAux (digitVal c) rest from by simp [digitsU, hc]]
      rw [digitsUAux_eq, hg, natOfDigits, List.filter_cons_of_pos hc, List.foldl_cons]
      simp
    · have hcf : c.isDigit = false := by simpa using hc
      have hg : specGroupedDigits (c :: rest) = false := by
        simp [specGroupedDigits, hcf]
      rw [show digitsU (c :: rest) = none from by simp [digitsU, hcf], hg]
      rfl

/-- Counterexample for claim C2: the string `"+5"` is not fully numeric
in the claim's sense (optional `-` then digits only), yet the shared
coercion returns 5 for it rather than no value, because Python `int`
accepts a leading `+`. -/
theorem claim2_counterexample :
    coerceInt (.str "+5") = some 5 ∧ isSpecNumeric "+5" = false := by
  constructor
  · rfl
  · decide

/-- Claim C2 as amended: on strings the shared coercion follows Python
`int`: after stripping surrounding whitespace, an optional `+` or `-`
sign followed by decimal digits in groups separated by single
underscores yields the signed base-10 reading of the digits; every other
string yields no value.  In particular every fully numeric string (the
original claim's grammar) still coerces to the integer it spells, but
surrounding whitespace, a leading `+`, and digit-group underscores are
also accepted rather than rejected. -/
theorem claim2_amended_coercion (s : String) :
    coerceInt (.str s) = specIntAmended s := by
  show pyIntOfString s = specIntAmended s
  unfold pyIntOfString specIntAmended
  cases hstrip : pyStripList s.data with
  | nil => rfl
  | cons c cs =>
    by_cases hp : c = '+'
    · subst hp
      simp only [if_pos rfl, digitsU_eq]
      by_cases hg : specGroupedDigits cs
      · simp [hg, Int.ofNat_eq_coe]
      · simp [hg]
    · by_cases hm : c = '-'
      · subst hm
        have hnp : ¬('-' = '+') := by decide
        simp only [if_neg hnp, if_pos rfl, digitsU_eq]
        by_cases hg : specGroupedDigits cs
        · simp [hg, Int.ofNat_eq_coe]
        · simp [hg]
      · simp only [if_neg hp, if_neg hm, digitsU_eq]
        by_cases hg : specGroupedDigits (c :: cs)
        · simp [hg, Int.ofNat_eq_coe]
        · simp [hg]

/-- Counterexample for claim C3: in `"a\nb" x` the newline lies inside a
string literal, and the tokenizer advances over it without touching the
line counter — the following IDENT token is positioned at line 1,
column 7, not at line 2, column 4 as the claimed invariant (every
consumed newline increments line and resets column) would require. -/
theorem claim3_counterexample :
    tokenize "\"a\nb\" x" =
      .ok [⟨"STRING", "a\nb", ⟨1, 1⟩⟩, ⟨"IDENT", "x", ⟨1, 7⟩⟩] ∧
    (⟨1, 7⟩ : Pos) ≠ ⟨2, 4⟩ :=
  ⟨rfl, by decide⟩

/-- Claim C3 as amended: (line, column) starts at (1, 1); a character
consumed by the top-level scanning loop advances the column, and a
newline consumed there increments the line and resets the column to 1;
but characters consumed inside a string literal — newlines included —
only advance the column and never change the line, and the emitted
STRING token carries the position of its opening quote. -/
theorem claim3_amended_positions :
    (∀ (fuel : Nat) (cs : List Char) (p : Pos),
      tokensAux (fuel + 1) ('\n' :: cs) p = tokensAux fuel cs ⟨p.line + 1, 1⟩) ∧
    (∀ (fuel : Nat) (cs : List Char) (p : Pos),
      tokensAux (fuel + 1) (' ' :: cs) p = tokensAux fuel cs ⟨p.line, p.col + 1⟩) ∧
    (∀ (start : Pos) (acc cs : List Char) (p : Pos) (tok : Token) (rest : List Char) (p2 : Pos),
      consumeStringBody start acc cs p = .ok (tok, rest, p2) →
      p2.line = p.line ∧ tok.pos = start) := by
  refine ⟨?_, ?_, ?_⟩
  · intro fuel cs p
    conv_lhs => unfold tokensAux
    simp [adv]
  · intro fuel cs p
    conv_lhs => unfold tokensAux
    simp [adv]
  · intro start acc cs p
    induction acc, cs, p using consumeStringBody.induct start with
    | case1 acc p =>
      intro tok rest p2 h
      simp [consumeStringBody] at h
    | case2 acc rest p =>
      intro tok rest2 p2 h
      rw [show consumeStringBody start acc ('"' :: rest) p =
          .ok (⟨"STRING", String.mk acc, start⟩, rest, adv p) from by
        conv_lhs => unfold consumeStringBody
        simp] at h
      obtain ⟨h1, h2, h3⟩ :
          (⟨"STRING", String.mk acc, start⟩ : Token) = tok ∧ rest = rest2 ∧ adv p = p2 := by
        simpa using h
      subst h1
      subst h3
      exact ⟨rfl, rfl⟩
    | case3 acc p hq =>
      intro tok rest p2 h
      rw [show consumeStringBody start acc ['\\'] p =
          .error ⟨"Unterminated escape sequence", some start⟩ from by
        conv_lhs => unfold consumeStringBody
        simp] at h
      exact absurd h (by simp)
    | case4 acc p d cs2 hq ih =>
      intro tok rest p2 h
      rw [show consumeStringBody start acc ('\\' :: d :: cs2) p =
          consumeStringBody start (acc ++ [translateEscape d]) cs2 (adv (adv p)) from by
        conv_lhs => unfold consumeStringBody
        simp] at h
      have hr := ih tok rest p2 h
      exact ⟨by rw [hr.1]; rfl, hr.2⟩
    | case5 acc c rest p hq hb ih =>
      intro tok rest2 p2 h
      rw [show consumeStringBody start acc (c :: rest) p =
          consumeStringBody start (acc ++ [c]) rest (adv p) from by
        conv_lhs => unfold consumeStringBody
        rw [if_neg hq, if_neg hb]] at h
      have hr := ih tok rest2 p2 h
      exact ⟨by rw [hr.1]; rfl, hr.2⟩

/-- Witness for the amended C3: the string-literal consumption run on
concrete input, its line preserved and its token anchored at the opening
quote. -/
theorem claim3_amended_positions_witness :
    (⟨1, 4⟩ : Pos).line = (⟨1, 2⟩ : Pos).line ∧
    (Token.mk "STRING" "a" ⟨1, 1⟩).pos = ⟨1, 1⟩ :=
  claim3_amended_positions.2.2 ⟨1, 1⟩ [] ['a', '"'] ⟨1, 2⟩
    ⟨"STRING", "a", ⟨1, 1⟩⟩ [] ⟨1, 4⟩ rfl

/-- Witness for the amended C2: fully numeric, whitespace-padded,
plus-signed and underscore-grouped strings all coerce per the amended
rule. -/
theorem claim2_amended_coercion_witness :
    coerceInt (.str "-12") = specIntAmended "-12" ∧
    coerceInt (.str " 5 ") = specIntAmended " 5 " ∧
    coerceInt (.str "+5") = specIntAmended "+5" ∧
    coerceInt (.str "1_0") = specIntAmended "1_0" ∧
    coerceInt (.str "1__0") = specIntAmended "1__0" ∧
    specIntAmended "-12" = some (-12) ∧
    specIntAmended " 5 " = some 5 ∧
    specIntAmended "+5" = some 5 ∧
    specIntAmended "1_0" = some 10 ∧
    specIntAmended "1__0" = none :=
  ⟨claim2_amended_coercion "-12", claim2_amended_coercion " 5 ",
   claim2_amended_coercion "+5", claim2_amended_coercion "1_0",
   claim2_amended_coercion "1__0", by decide, by decide, by decide, by decide, by decide⟩

theorem takeWhilePos_exact {f : Char → Bool} (ds : List Char) (h : ∀ c ∈ ds, f c = true)
    (rest : List Char) (hr : match rest with | [] => True | c :: _ => f c = false) :
    ∀ p : Pos, ∃ p2, takeWhilePos f (ds ++ rest) p = (ds, rest, p2) := by
  induction ds with
  | nil =>
    intro p
    cases rest with
    | nil => exact ⟨p, rfl⟩
    | cons c rest2 =>
      refine ⟨p, ?_⟩
      simp only [List.nil_append]
      unfold takeWhilePos
      rw [if_neg (by simp [hr])]
  | cons d ds2 ih =>
    intro p
    obtain ⟨p2, hp2⟩ := ih (fun c hc => h c (List.mem_cons_of_mem d hc)) (adv p)
    refine ⟨p2, ?_⟩
    simp only [List.cons_append]
    unfold takeWhilePos
    rw [if_pos (h d (List.mem_cons_self d ds2)), hp2]

theorem consumeNumberCore_trailing_dot (neg : Bool) (start : Pos) (ds rest : List Char) (p : Pos)
    (hd : ∀ c ∈ ds, c.isDigit = true)
    (hr : match rest with | [] => True | c :: _ => c.isDigit = false) :
    consumeNumberCore neg start (ds ++ '.' :: rest) p =
      .error ⟨"Invalid number literal", some start⟩ := by
  obtain ⟨p2, hp2⟩ := takeWhilePos_exact ds hd ('.' :: rest) (by simp) p
  unfold consumeNumberCore
  rw [hp2]
  cases rest with
  | nil => rfl
  | cons c rest2 =>
    have hcf : c.isDigit = false := hr
    simp [hcf]

theorem consumeNumber_trailing_dot (ds rest : List Char) (p : Pos)
    (hne : ds ≠ []) (hd : ∀ c ∈ ds, c.isDigit = true)
    (hr : match rest with | [] => True | c :: _ => c.isDigit = false) :
    consumeNumber (ds ++ '.' :: rest) p = .error ⟨"Invalid number literal", some p⟩ := by
  rcases ds with _ | ⟨d0, ds2⟩
  · exact absurd rfl hne
  have hd0 : d0.isDigit = true := hd d0 (List.mem_cons_self d0 ds2)
  have hm : d0 ≠ '-' := by rintro rfl; exact absurd hd0 (by decide)
  rw [show consumeNumber ((d0 :: ds2) ++ '.' :: rest) p =
      consumeNumberCore false p (d0 :: (ds2 ++ '.' :: rest)) p from by
    simp only [List.cons_append]
    show (if d0 = '-' then consumeNumberCore true p (ds2 ++ '.' :: rest) (adv p)
        else consumeNumberCore false p (d0 :: (ds2 ++ '.' :: rest)) p) =
      consumeNumberCore false p (d0 :: (ds2 ++ '.' :: rest)) p
    rw [if_neg hm]]
  exact List.cons_append d0 ds2 ('.' :: rest) ▸
    consumeNumberCore_trailing_dot false p (d0 :: ds2) rest p hd hr

theorem consumeNumber_trailing_dot_neg (ds rest : List Char) (p : Pos)
    (hd : ∀ c ∈ ds, c.isDigit = true)
    (hr : match rest with | [] => True | c :: _ => c.isDigit = false) :
    consumeNumber ('-' :: (ds ++ '.' :: rest)) p = .error ⟨"Invalid number literal", some p⟩ := by
  rw [show consumeNumber ('-' :: (ds ++ '.' :: rest)) p =
      consumeNumberCore true p (ds ++ '.' :: rest) (adv p) from rfl]
  exact consumeNumberCore_trailing_dot true p ds rest (adv p) hd hr


theorem parseValue_number (g : Nat) (lit : String) (pos : Pos) (rest : List Token) :
    parseValue (g + 1) (⟨"NUMBER", lit, pos⟩ :: rest) = .ok (numberValue lit, rest) := rfl

theorem parseValue_ident (g : Nat) (s : String) (pos : Pos) (rest : List Token) :
    parseValue (g + 1) (⟨"IDENT", s, pos⟩ :: rest) = .ok (identValue s, rest) := rfl

theorem parseListLoop_close (g : Nat) (v : String) (pos : Pos) (rest : List Token) (acc : List Value) :
    parseListLoop (g + 1) (⟨")", v, pos⟩ :: rest) acc = .ok (.list acc, rest) := rfl

theorem parseListLoop_step (g : Nat) (t : Token) (T : List Token) (acc : List Value)
    (hk : t.kind ≠ ")") :
    parseListLoop (g + 1) (t :: T) acc =
      match parseValue g (t :: T) with
      | .ok (v, r1) => parseListLoop g (consumeOptionalSeparator r1 ")") (acc ++ [v])
      | .error e => .error e := by
  show (parsePack (g + 1)).2.2 (t :: T) acc = _
  rw [parsePack]
  simp only []
  split
  · rename_i rest heq
    injection heq with h1 h2
    rw [h1] at hk
    simp at hk
  · show (do
      let (v, r1) ← (parsePack g).1 (t :: T)
      let r2 := consumeOptionalSeparator r1 ")"
      (parsePack g).2.2 r2 (acc ++ [v])) = _
    show (parsePack g).1 (t :: T) >>= _ = _
    cases hpv : (parsePack g).1 (t :: T) with
    | ok pr =>
      rw [show parseValue g (t :: T) = (parsePack g).1 (t :: T) from rfl, hpv]
      obtain ⟨v, r1⟩ := pr
      rfl
    | error e =>
      rw [show parseValue g (t :: T) = (parsePack g).1 (t :: T) from rfl, hpv]
      rfl


theorem parseListLoop_step_ok (g : Nat) (t : Token) (T : List Token) (acc : List Value)
    (hk : t.kind ≠ ")") (v : Value) (r1 : List Token)
    (hv : parseValue g (t :: T) = .ok (v, r1)) :
    parseListLoop (g + 1) (t :: T) acc =
      parseListLoop g (consumeOptionalSeparator r1 ")") (acc ++ [v]) := by
  rw [parseListLoop_step g t T acc hk, hv]

theorem consumeOptionalSeparator_comma (value : String) (pos : Pos) (rest : List Token) :
    consumeOptionalSeparator (⟨",", value, pos⟩ :: rest) ")" = rest := rfl

theorem consumeOptionalSeparator_number (value : String) (pos : Pos) (rest : List Token) :
    consumeOptionalSeparator (⟨"NUMBER", value, pos⟩ :: rest) ")" =
      ⟨"NUMBER", value, pos⟩ :: rest := rfl

theorem consumeOptionalSeparator_close (value : String) (pos : Pos) (rest : List Token) :
    consumeOptionalSeparator (⟨")", value, pos⟩ :: rest) ")" =
      ⟨")", value, pos⟩ :: rest := rfl

theorem parseListLoop_seps (lits : List String) :
    ∀ (fuel : Nat) (acc : List Value) (rest : List Token), lits.length + 1 ≤ fuel →
      parseListLoop fuel (numToksSep lits ++ closeParenTok :: rest) acc =
        .ok (.list (acc ++ lits.map numberValue), rest) ∧
      parseListLoop fuel (numToksNoSep lits ++ closeParenTok :: rest) acc =
        .ok (.list (acc ++ lits.map numberValue), rest) := by
  induction lits with
  | nil =>
    intro fuel acc rest h
    obtain ⟨f, rfl⟩ : ∃ f, fuel = f + 1 := ⟨fuel - 1, by omega⟩
    refine ⟨?_, ?_⟩ <;>
    · simp only [numToksSep, numToksNoSep, List.flatMap_nil, List.map_nil, List.nil_append,
        closeParenTok]
      rw [parseListLoop_close]
      simp
  | cons l ls ih =>
    intro fuel acc rest h
    obtain ⟨f, rfl⟩ : ∃ f, fuel = f + 1 := ⟨fuel - 1, by omega⟩
    have hf : ls.length + 1 ≤ f := by
      simp only [List.length_cons] at h
      omega
    obtain ⟨g, rfl⟩ : ∃ g, f = g + 1 := ⟨f - 1, by omega⟩
    constructor
    · simp only [numToksSep, List.flatMap_cons, List.cons_append, numTok, commaTok]
      rw [parseListLoop_step_ok (g + 1) _ _ acc (by simp) (numberValue l) _
        (parseValue_number g l ⟨1, 1⟩ _)]
      rw [consumeOptionalSeparator_comma]
      simp only [List.nil_append]
      have := (ih (g + 1) (acc ++ [numberValue l]) rest hf).1
      simp only [numToksSep, numTok, commaTok] at this
      rw [this]
      simp
    · simp only [numToksNoSep, List.map_cons, List.cons_append, numTok]
      rw [parseListLoop_step_ok (g + 1) _ _ acc (by simp) (numberValue l) _
        (parseValue_number g l ⟨1, 1⟩ _)]
      rw [show consumeOptionalSeparator (List.map numTok ls ++ closeParenTok :: rest) ")" =
          List.map numTok ls ++ closeParenTok :: rest from by
        cases ls with
        | nil => rfl
        | cons l2 ls2 => rfl]
      have := (ih (g + 1) (acc ++ [numberValue l]) rest hf).2
      simp only [numToksNoSep, numTok] at this
      rw [this]
      simp


set_option maxHeartbeats 1000000 in
/-- Claim C5: the literal `3` parses to Int 3, `3.5` to Float 3.5 (the
rational 7/2), `-3` to Int -3; and whenever a number's digit run is
immediately followed by a dot with no digit after it, tokenization
raises a SyntaxError positioned at the start of that number — shown on
the fixture `x = 3.` (error at line 1, column 5, where the number
starts) and in general over `_consume_number`, with and without a
leading minus. -/
theorem claim5_number_literals :
    parseConfig "x = 3" = .ok [("x", .int 3)] ∧
    parseConfig "x = 3.5" = .ok [("x", .float (mkRat 7 2))] ∧
    mkRat 7 2 = (3.5 : Rat) ∧
    parseConfig "x = -3" = .ok [("x", .int (-3))] ∧
    tokenize "x = 3." = .error ⟨"Invalid number literal", some ⟨1, 5⟩⟩ ∧
    (∀ (ds rest : List Char) (p : Pos),
      ds ≠ [] → (∀ c ∈ ds, c.isDigit = true) →
      (match rest with | [] => True | c :: _ => c.isDigit = false) →
      consumeNumber (ds ++ '.' :: rest) p = .error ⟨"Invalid number literal", some p⟩ ∧
      consumeNumber ('-' :: (ds ++ '.' :: rest)) p = .error ⟨"Invalid number literal", some p⟩) := by
  refine ⟨rfl, rfl, by norm_num [Rat.mkRat_eq_div], rfl, rfl, ?_⟩
  intro ds rest p hne hd hr
  exact ⟨consumeNumber_trailing_dot ds rest p hne hd hr,
    consumeNumber_trailing_dot_neg ds rest p hd hr⟩

/-- Witness for C5: the trailing-dot error evaluated on concrete
digit runs. -/
theorem claim5_number_literals_witness :
    consumeNumber ['3', '.'] ⟨1, 5⟩ = .error ⟨"Invalid number literal", some ⟨1, 5⟩⟩ ∧
    consumeNumber ['-', '3', '.'] ⟨1, 5⟩ = .error ⟨"Invalid number literal", some ⟨1, 5⟩⟩ := by
  have h := claim5_number_literals.2.2.2.2.2 ['3'] [] ⟨1, 5⟩ (by simp)
    (by intro c hc; simp at hc; subst hc; decide) trivial
  exact ⟨h.1, h.2⟩

set_option maxHeartbeats 1000000 in
/-- Claim C8: parsing is insensitive to the optional separators —
`\x7ba=1 b=2\x7d` and `\x7ba=1, b=2\x7d` parse to structurally equal
Values, `(1 2)` and `(1, 2)` likewise; and in general the list-element
loop accepts any number of elements with a comma after every element or
with no separators at all, never requiring one, including before the
closing bracket. -/
theorem claim8_separator_tolerance :
    parseConfig "x = \x7ba=1 b=2\x7d" = parseConfig "x = \x7ba=1, b=2\x7d" ∧
    parseConfig "x = \x7ba=1 b=2\x7d" = .ok [("x", .obj [("a", .int 1), ("b", .int 2)])] ∧
    parseConfig "y = (1 2)" = parseConfig "y = (1, 2)" ∧
    parseConfig "y = (1 2)" = .ok [("y", .list [.int 1, .int 2])] ∧
    (∀ (lits : List String) (fuel : Nat) (acc : List Value) (rest : List Token),
      lits.length + 1 ≤ fuel →
      parseListLoop fuel (numToksSep lits ++ closeParenTok :: rest) acc =
        .ok (.list (acc ++ lits.map numberValue), rest) ∧
      parseListLoop fuel (numToksNoSep lits ++ closeParenTok :: rest) acc =
        .ok (.list (acc ++ lits.map numberValue), rest)) := by
  have ho1 : parseConfig "x = \x7ba=1 b=2\x7d" =
      .ok [("x", .obj [("a", .int 1), ("b", .int 2)])] := rfl
  have ho2 : parseConfig "x = \x7ba=1, b=2\x7d" =
      .ok [("x", .obj [("a", .int 1), ("b", .int 2)])] := rfl
  have hl1 : parseConfig "y = (1 2)" = .ok [("y", .list [.int 1, .int 2])] := rfl
  have hl2 : parseConfig "y = (1, 2)" = .ok [("y", .list [.int 1, .int 2])] := rfl
  exact ⟨ho1.trans ho2.symm, ho1, hl1.trans hl2.symm, hl1,
    fun lits fuel acc rest h => parseListLoop_seps lits fuel acc rest h⟩

/-- Witness for C8: the general separator lemma at a concrete two-element
token list. -/
theorem claim8_separator_tolerance_witness :
    parseListLoop 3 (numToksSep ["1", "2"] ++ closeParenTok :: []) [] =
      .ok (.list ([] ++ ["1", "2"].map numberValue), []) ∧
    parseListLoop 3 (numToksNoSep ["1", "2"] ++ closeParenTok :: []) [] =
      .ok (.list ([] ++ ["1", "2"].map numberValue), []) :=
  claim8_separator_tolerance.2.2.2.2 ["1", "2"] 3 [] [] (by decide)

/-- Claim C9: a bare IDENT in value position maps, case-insensitively on
its lowercased spelling, to Bool true / Bool false / Null, and every
other spelling is kept verbatim as the identifier's text (the source
represents such an Identifier value as the plain string it read, not
lowercased). -/
theorem claim9_ident_literals (s : String) (pos : Pos) (rest : List Token) (fuel : Nat) :
    (pyLower s = "true" →
      parseValue (fuel + 1) (⟨"IDENT", s, pos⟩ :: rest) = .ok (.bool true, rest)) ∧
    (pyLower s = "false" →
      parseValue (fuel + 1) (⟨"IDENT", s, pos⟩ :: rest) = .ok (.bool false, rest)) ∧
    (pyLower s = "null" →
      parseValue (fuel + 1) (⟨"IDENT", s, pos⟩ :: rest) = .ok (.null, rest)) ∧
    (pyLower s ≠ "true" → pyLower s ≠ "false" → pyLower s ≠ "null" →
      parseValue (fuel + 1) (⟨"IDENT", s, pos⟩ :: rest) = .ok (.str s, rest)) := by
  have hstep := parseValue_ident fuel s pos rest
  refine ⟨?_, ?_, ?_, ?_⟩
  · intro h
    rw [hstep]
    simp [identValue, h]
  · intro h
    rw [hstep]
    simp [identValue, h]
  · intro h
    rw [hstep]
    simp [identValue, h]
  · intro h1 h2 h3
    rw [hstep]
    simp [identValue, h1, h2, h3]

/-- Witness for C9: the four literal mappings at concrete spellings. -/
theorem claim9_ident_literals_witness :
    parseValue 1 [⟨"IDENT", "TRUE", ⟨1, 1⟩⟩] = .ok (.bool true, []) ∧
    parseValue 1 [⟨"IDENT", "False", ⟨1, 1⟩⟩] = .ok (.bool false, []) ∧
    parseValue 1 [⟨"IDENT", "NULL", ⟨1, 1⟩⟩] = .ok (.null, []) ∧
    parseValue 1 [⟨"IDENT", "foo", ⟨1, 1⟩⟩] = .ok (.str "foo", []) :=
  ⟨(claim9_ident_literals "TRUE" ⟨1, 1⟩ [] 0).1 (by decide),
   (claim9_ident_literals "False" ⟨1, 1⟩ [] 0).2.1 (by decide),
   (claim9_ident_literals "NULL" ⟨1, 1⟩ [] 0).2.2.1 (by decide),
   (claim9_ident_literals "foo" ⟨1, 1⟩ [] 0).2.2.2 (by decide) (by decide) (by decide)⟩


theorem bindOkOfOk (x : Except String (List Finding)) (g : List Finding → List Finding)
    (hx : ∃ fs, x = .ok fs) :
    ∃ fs, (x >>= fun tail => Except.ok (g tail)) = .ok fs := by
  obtain ⟨fs, rfl⟩ := hx
  exact ⟨g fs, rfl⟩

theorem usersLoop_ok (hgs : List Int) (entries : List Value) :
    ∀ idx : Nat, ∃ fs, usersLoop hgs idx entries = .ok fs := by
  have hbind : ∀ {α β : Type} (a : α) (f : α → Except String β),
      ((Except.ok a : Except String α) >>= f) = f a := fun a f => rfl
  induction entries with
  | nil => intro idx; exact ⟨[], rfl⟩
  | cons e rest ih =>
    intro idx
    cases e
    case obj m =>
      simp only [usersLoop, Value.isObj, if_true, Value.pyGet, hbind]
      exact bindOkOfOk _ _ (ih (idx + 1))
    all_goals
      simp only [usersLoop, Value.isObj, Bool.false_eq_true, if_false, hbind]
    all_goals exact bindOkOfOk _ _ (ih (idx + 1))

theorem queryRulesLoop_ok (hgs : List Int) (entries : List Value) :
    ∀ (idx : Nat) (seenIds : List Int),
      ∃ fs, queryRulesLoop hgs idx seenIds entries = .ok fs := by
  have hbind : ∀ {α β : Type} (a : α) (f : α → Except String β),
      ((Except.ok a : Except String α) >>= f) = f a := fun a f => rfl
  induction entries with
  | nil => intro idx seenIds; exact ⟨[], rfl⟩
  | cons e rest ih =>
    intro idx seenIds
    cases e
    case obj m =>
      simp only [queryRulesLoop, Value.isObj, if_true, Value.pyGet, hbind]
      exact bindOkOfOk _ _ (ih (idx + 1) _)
    all_goals
      simp only [queryRulesLoop, Value.isObj, Bool.false_eq_true, if_false, hbind]
    all_goals exact bindOkOfOk _ _ (ih (idx + 1) _)

theorem datadirCheck_ok (raw : Config) : ∃ fs, datadirCheck raw = .ok fs := by
  unfold datadirCheck
  split
  · split
    · exact ⟨_, rfl⟩
    · split
      · exact ⟨_, rfl⟩
      · exact ⟨_, rfl⟩
  · exact ⟨_, rfl⟩

theorem engineRun_ok (rules : List Rule) (raw : Config)
    (h : ∀ r ∈ rules, ∃ fs, r.check raw = .ok fs) :
    ∃ fs, engineRun rules raw = .ok fs := by
  induction rules with
  | nil => exact ⟨[], rfl⟩
  | cons r rest ih =>
    obtain ⟨f1, hf1⟩ := h r (List.mem_cons_self r rest)
    obtain ⟨f2, hf2⟩ := ih (fun r2 hr2 => h r2 (List.mem_cons_of_mem r hr2))
    refine ⟨f1 ++ f2, ?_⟩
    simp only [engineRun, hf1, hf2]
    rfl

set_option maxHeartbeats 1000000 in
/-- Claim C1 is right about the intent but wrong about the code (code
bug): on the parser-producible config `svCrashText`, whose single
mysql_servers entry has a non-empty dict address with port and
hostgroup present, the duplicate-detection line `key in seen` hashes a
tuple containing the dict and Python raises TypeError — so
MysqlServersRule.check and RuleEngine.run do raise on a syntactically
valid Value Tree instead of reporting Findings only. -/
theorem claim1_engine_raises :
    parseConfig svCrashText = .ok svCrashRaw ∧
    mysqlServersCheck svCrashRaw = .error "TypeError: unhashable type" ∧
    engineRun builtinRules svCrashRaw = .error "TypeError: unhashable type" :=
  ⟨rfl, rfl, rfl⟩


set_option maxRecDepth 2000 in
theorem engineRun_all_empty (rules : List Rule) (raw : Config)
    (h : ∀ r ∈ rules, r.check raw = .ok []) : engineRun rules raw = .ok [] := by
  induction rules with
  | nil => rfl
  | cons r rest ih =>
    simp only [engineRun, h r (List.mem_cons_self r rest),
      ih (fun r2 hr2 => h r2 (List.mem_cons_of_mem r hr2))]
    rfl

set_option maxRecDepth 4000 in
set_option maxHeartbeats 1000000 in
/-- Claim C4: the minimal valid fixture text parses to the expected root
dict, and running the engine with the six built-in rules in registration
order over that root — generalised over any non-blank mysql_ifaces text
and any non-None max_connections value — yields the empty sequence of
Findings. -/
theorem claim4_minimal_fixture :
    parseConfig fixtureText = .ok (fixtureRaw "0.0.0.0:6032" (.int 100)) ∧
    (∀ (ifaces : String) (maxConn : Value),
      pyStrip ifaces ≠ "" → pyIsNone (some maxConn) = false →
      engineRun builtinRules (fixtureRaw ifaces maxConn) = .ok []) := by
  refine ⟨rfl, ?_⟩
  intro ifaces mc h1 h2
  have hbind : ∀ {α β : Type} (a : α) (f : α → Except String β),
      ((Except.ok a : Except String α) >>= f) = f a := fun a f => rfl
  apply engineRun_all_empty
  intro r hr
  have hadmin : adminCredentialsCheck (fixtureRaw ifaces mc) = .ok [] := by
    simp only [adminCredentialsCheck, getBlock, objGet, fixtureRaw]
    simp [h1]
  have hservers : mysqlServersCheck (fixtureRaw ifaces mc) = .ok [] := by
    simp only [mysqlServersCheck, getList, objGet, fixtureRaw]
    simp only [serversLoop, Value.isObj, Value.pyGet, objGet]
    simp [hbind, coerceInt, h2, show pyIsNone (some (Value.str "127.0.0.1")) = false from rfl,
      show pyTruthy (Value.str "127.0.0.1") = true from rfl,
      show (Value.str "127.0.0.1").pyHashable = true from rfl,
      keyMem, serverKey, pyIntOfString]
  fin_cases hr
  · rfl
  · exact hadmin
  · exact hservers
  · rfl
  · rfl
  · rfl

/-- Witness for C4: the engine evaluated on the fixture exactly as
parsed. -/
theorem claim4_minimal_fixture_witness :
    engineRun builtinRules (fixtureRaw "0.0.0.0:6032" (.int 100)) = .ok [] :=
  claim4_minimal_fixture.2 "0.0.0.0:6032" (.int 100) (by decide) rfl


theorem contains_append_singleton (l : List Int) (a x : Int) :
    (l ++ [a]).contains x = (l.contains x || (x == a)) := by
  induction l with
  | nil =>
    cases h : x == a <;> simp [List.contains_cons, h] <;> simpa using h
  | cons b bs ih =>
    simp only [List.cons_append, List.contains_cons, ih, Bool.or_assoc]

theorem qrIdFindings_count (t : String) (seen : List Int) (rid : Option Int) :
    (qrIdFindings (("mysql_query_rules[" ++ t) ++ "]") seen rid).countP isDupRuleIdFinding =
      (match rid with
       | some n => if seen.contains n then 1 else 0
       | none => 0) := by
  cases rid with
  | none => rfl
  | some n =>
    cases hc : seen.contains n <;> simp only [qrIdFindings, hc, if_true, if_false] <;> rfl

theorem qrDestFindings_count (hgs : List Int) (t : String) (dest : Option Int) :
    (qrDestFindings hgs (("mysql_query_rules[" ++ t) ++ "]") dest).countP
      isDupRuleIdFinding = 0 := by
  cases dest with
  | none => rfl
  | some d =>
    unfold qrDestFindings
    split
    · split
      · rfl
      · rfl
    · rfl

theorem qrMpFindings_count (t : String) (mp : Option Value) :
    (qrMpFindings (("mysql_query_rules[" ++ t) ++ "]") mp).countP isDupRuleIdFinding = 0 := by
  cases mp with
  | none => rfl
  | some v =>
    unfold qrMpFindings
    split
    · split
      · rfl
      · rfl
    · rfl


theorem queryRulesLoop_count (hgs : List Int) (entries : List Value) :
    ∀ (idx : Nat) (seenIds earlier : List Int),
      (∀ e ∈ entries, qrEntryCoercible e = true) →
      (∀ x : Int, seenIds.contains x = earlier.contains x) →
      ∃ fs, queryRulesLoop hgs idx seenIds entries = .ok fs ∧
        fs.countP isDupRuleIdFinding = dupCountFrom earlier (qrIds entries) := by
  have hbind : ∀ {α β : Type} (a : α) (f : α → Except String β),
      ((Except.ok a : Except String α) >>= f) = f a := fun a f => rfl
  induction entries with
  | nil =>
    intro idx seenIds earlier hAll hSeen
    exact ⟨[], rfl, by simp [dupCountFrom, qrIds]⟩
  | cons e rest ih =>
    intro idx seenIds earlier hAll hSeen
    have hAll' : ∀ e2 ∈ rest, qrEntryCoercible e2 = true :=
      fun e2 he2 => hAll e2 (List.mem_cons_of_mem e he2)
    cases e
    case obj m =>
      have hsome : ((objGet m "rule_id").bind coerceInt).isSome = true :=
        hAll (Value.obj m) (List.mem_cons_self _ _)
      obtain ⟨n, hn⟩ := Option.isSome_iff_exists.mp hsome
      have hq : qrIds (Value.obj m :: rest) = n :: qrIds rest := by
        simp [qrIds, List.filterMap_cons, hn]
      have hSeen2 : ∀ x : Int, (qrSeenAfter seenIds (some n)).contains x =
          (earlier ++ [n]).contains x := by
        intro x
        cases hc : seenIds.contains n with
        | true =>
          simp only [qrSeenAfter, hc, if_true]
          rw [contains_append_singleton, ← hSeen]
          cases hx : x == n with
          | false => simp [hx]
          | true =>
            have hxn : x = n := eq_of_beq hx
            subst hxn
            rw [hc]
            rfl
        | false =>
          simp only [qrSeenAfter, hc, setInsertInt, if_false, Bool.false_eq_true]
          rw [contains_append_singleton, contains_append_singleton, hSeen]
      obtain ⟨tail, htail, hcnt⟩ := ih (idx + 1) (qrSeenAfter seenIds (some n))
        (earlier ++ [n]) hAll' hSeen2
      simp only [queryRulesLoop, Value.isObj, if_true, Value.pyGet, hbind, hn]
      rw [htail, hbind]
      refine ⟨_, rfl, ?_⟩
      rw [hq]
      simp only [List.countP_append, qrIdFindings_count, qrDestFindings_count,
        qrMpFindings_count, hcnt, dupCountFrom]
      rw [← hSeen]
      omega
    all_goals
      obtain ⟨tail, htail, hcnt⟩ := ih (idx + 1) seenIds earlier hAll' hSeen
      simp only [queryRulesLoop, Value.isObj, Bool.false_eq_true, if_false, hbind]
      rw [htail, hbind]
      refine ⟨_, rfl, ?_⟩
      rw [List.countP_cons]
      simp only [qrIds, List.filterMap_cons] at hcnt ⊢
      rw [hcnt]
      rfl

/-- Claim C6: for every mysql_query_rules list whose dict entries all
have a coercible rule_id, the rule emits exactly one duplicate-id error
Finding for each entry whose coerced rule_id equals that of some earlier
entry (the first occurrence registers the id and produces no error); and
on the concrete two-entry list sharing rule_id 1, exactly one
duplicate-id error appears, emitted among the second entry's findings. -/
theorem claim6_duplicate_rule_ids :
    (∀ raw : Config,
      (∀ e ∈ getList raw "mysql_query_rules", qrEntryCoercible e = true) →
      ∃ fs, mysqlQueryRulesCheck raw = .ok fs ∧
        fs.countP isDupRuleIdFinding =
          dupCountFrom [] (qrIds (getList raw "mysql_query_rules"))) ∧
    mysqlQueryRulesCheck qrPairRaw = .ok
      [warnF "mysql_query_rules" "mysql_query_rules[0].match_pattern should be defined",
       errF "mysql_query_rules" "Duplicate rule_id 1 in mysql_query_rules",
       warnF "mysql_query_rules" "mysql_query_rules[1].match_pattern should be defined"] := by
  refine ⟨?_, rfl⟩
  intro raw hAll
  exact queryRulesLoop_count (hostgroups raw) (getList raw "mysql_query_rules") 0 [] []
    hAll (fun x => rfl)

/-- Witness for C6: the counting theorem instantiated on the two-entry
list sharing rule_id 1, whose duplicate count is one. -/
theorem claim6_duplicate_rule_ids_witness :
    mysqlQueryRulesCheck qrPairRaw = .ok
      [warnF "mysql_query_rules" "mysql_query_rules[0].match_pattern should be defined",
       errF "mysql_query_rules" "Duplicate rule_id 1 in mysql_query_rules",
       warnF "mysql_query_rules" "mysql_query_rules[1].match_pattern should be defined"] ∧
    List.countP isDupRuleIdFinding
      [warnF "mysql_query_rules" "mysql_query_rules[0].match_pattern should be defined",
       errF "mysql_query_rules" "Duplicate rule_id 1 in mysql_query_rules",
       warnF "mysql_query_rules" "mysql_query_rules[1].match_pattern should be defined"] = 1 := by
  obtain ⟨fs, hok, hcnt⟩ := claim6_duplicate_rule_ids.1 qrPairRaw (by decide)
  exact ⟨rfl, by decide⟩


/-- Claim C10: the composite duplicate-detection key collapses falsy
present values to the absent-value sentinels — port 0 and hostgroup 0
become -1 and an empty address stays the empty string — so two dict
entries with the same non-empty address and the same valid port, one
with hostgroup 0 and the other with hostgroup -1, produce equal keys,
and the later entry is reported as a duplicate (its finding carries
hostgroup -1) even though the hostgroups differ. -/
theorem claim10_server_key_collapse :
    serverKey (some (.str "")) (some 0) (some 0) = (.str "", -1, -1) ∧
    toString (-1 : Int) = "-1" ∧
    (∀ (a : String) (p : Int), a ≠ "" → 0 < p → p < 65536 →
      serverKey (some (.str a)) (some p) (some 0) =
        serverKey (some (.str a)) (some p) (some (-1)) ∧
      mysqlServersCheck (svPairRaw a p) = .ok
        [errF "mysql_servers" ("mysql_servers[" ++ toString 1 ++ "]" ++
           ".hostgroup must be a non-negative integer"),
         errF "mysql_servers" ("Duplicate mysql_server entry for " ++ a ++ ":" ++
           toString p ++ " in hostgroup " ++ toString (-1 : Int))]) := by
  refine ⟨rfl, rfl, ?_⟩
  intro a p h1 h2 h3
  have hbind : ∀ {α β : Type} (x : α) (f : α → Except String β),
      ((Except.ok x : Except String α) >>= f) = f x := fun x f => rfl
  have hta : pyTruthy (Value.str a) = true := by simp [pyTruthy, h1]
  have hp0 : p ≠ 0 := by omega
  constructor
  · simp [serverKey, hta, hp0]
  · simp only [mysqlServersCheck, getList, objGet, svPairRaw]
    simp only [serversLoop, Value.isObj, if_true, Value.pyGet, objGet, hbind]
    simp [coerceInt, pyIsNone, h1, h2, h3, hp0, hta,
      show ∀ x : String, (Value.str x).pyHashable = true from fun x => rfl,
      keyMem, keyInsert, keyBeq, serverKey, Value.beq, pyStr]
    rfl

/-- Witness for C10: the duplicate report evaluated at a concrete
address and port. -/
theorem claim10_server_key_collapse_witness :
    mysqlServersCheck (svPairRaw "10.0.0.1" 3306) = .ok
      [errF "mysql_servers" ("mysql_servers[" ++ toString 1 ++ "]" ++
         ".hostgroup must be a non-negative integer"),
       errF "mysql_servers" ("Duplicate mysql_server entry for " ++ "10.0.0.1" ++ ":" ++
         toString (3306 : Int) ++ " in hostgroup " ++ toString (-1 : Int))] :=
  (claim10_server_key_collapse.2.2 "10.0.0.1" 3306 (by decide) (by decide) (by decide)).2


end ProxyCfg
